import Mathlib

/-
Verification development for the eternal-deck-builder repository.

Shallow embedding of the parts of the code that the checked properties
touch: the card data model (src/data/models.py), the spreadsheet row
parser (src/data/sheets_client.py), the hybrid search engine
(src/rag/search_engine.py) and the strategy scout pool organisation
(src/agents/strategy_scout.py).

Modelling conventions:
- Python strings are Lean String; str.lower / str.upper / str.strip are
  modelled character-wise over String.data (the card data is ASCII).
- Python `needle in haystack` on strings is substring containment,
  modelled as list infix over the character lists.
- Python floats in the relevance score are modelled as rationals with
  the exact decimal values; the checked property (pool reordering is a
  permutation) does not depend on floating point rounding.
- The ChromaDB vector store is external; its reply for a query is an
  uninterpreted function on the engine record, so every theorem holds
  for all possible vector-store answers.
- Wall-clock fields (search_time, execution_time) are not modelled.
-/

/-- Model of Python str.lower, applied character-wise (card data is ASCII). -/
def strLower (s : String) : String := String.mk (s.data.map Char.toLower)

/-- Model of Python str.upper, applied character-wise. -/
def strUpper (s : String) : String := String.mk (s.data.map Char.toUpper)

/-- Model of Python str.strip: drop whitespace from both ends. -/
def strStrip (s : String) : String :=
  String.mk (((s.data.dropWhile Char.isWhitespace).reverse.dropWhile Char.isWhitespace).reverse)

/-- Model of the Python substring test: needle in hay. -/
def substrOf (needle hay : String) : Bool := decide (needle.data <:+: hay.data)

/-- Truthiness of an optional Python list: None and the empty list are falsy. -/
def truthyStrList : Option (List String) → Bool
  | none => false
  | some l => !l.isEmpty

-- =========================================================================
-- Card data model, from src/data/models.py (class Card).
-- Only the fields and computed flags that the checked claims use are
-- carried; the pydantic HTML-cleanup validator on card_text is not
-- modelled (no checked claim depends on it).
-- =========================================================================

structure Card where
  name : String
  cost : Int := 0
  influence : String := ""
  type : String
  card_text : String := ""
  rarity : String := "Common"
  deck_buildable : Bool := true
  set_number : String := ""
  attack : Option Int := none
  health : Option Int := none
  eternal_id : Option String := none
  image_url : Option String := none
  unit_types : List String := []
  set_name : Option String := none
  deriving DecidableEq, Repr

/-- Computed flag is_power: the type field equals power, lowercased. -/
def Card.is_power (c : Card) : Bool := strLower c.type == "power"

/-- Computed flag is_unit. -/
def Card.is_unit (c : Card) : Bool := strLower c.type == "unit"

/-- Computed flag is_spell. -/
def Card.is_spell (c : Card) : Bool := strLower c.type == "spell"

/-- Computed flag is_sigil: a power card whose lowercased name contains sigil. -/
def Card.is_sigil (c : Card) : Bool := c.is_power && substrOf "sigil" (strLower c.name)

/-- Computed flag can_access_market: empty text never grants access, otherwise
the lowercased text is searched for the three market patterns. -/
def Card.can_access_market (c : Card) : Bool :=
  if c.card_text == "" then false
  else
    let text_lower := strLower c.card_text
    ["your market", "from your market", "in your market"].any
      (fun pattern => substrOf pattern text_lower)

-- =========================================================================
-- Faction configuration, from src/config.py (FACTIONS / FACTION_SYMBOLS).
-- =========================================================================

/-- FACTION_SYMBOLS from config.py: faction name to influence symbol. -/
def FACTION_SYMBOLS : List (String × String) :=
  [("Fire", "\x7bF\x7d"), ("Time", "\x7bT\x7d"), ("Justice", "\x7bJ\x7d"),
   ("Primal", "\x7bP\x7d"), ("Shadow", "\x7bS\x7d")]

/-- The five influence symbols, in dictionary iteration order. -/
def factionSymbolValues : List String := FACTION_SYMBOLS.map Prod.snd

-- =========================================================================
-- Search filters and results, from src/rag/search_engine.py.
-- =========================================================================

structure SearchFilters where
  allowed_factions : Option (List String) := none
  max_factions_per_card : Option Int := none
  format : String := "Throne"
  max_rarity : Option String := none
  archetype : Option String := none
  min_cost : Option Int := none
  max_cost : Option Int := none
  card_types : Option (List String) := none
  unit_types : Option (List String) := none
  must_include : Option (List String) := none
  must_exclude : Option (List String) := none
  include_market : Bool := true
  market_access_only : Bool := false
  deriving DecidableEq, Repr

structure SearchResult where
  cards : List Card
  total_found : Nat
  query : String
  query_interpretation : String
  filters_applied : Option SearchFilters
  used_chromadb : Bool := true
  deriving DecidableEq, Repr

/-- The search engine state: the in-memory card cache, the vector-store
availability flag, and an uninterpreted function giving the card names that
the ChromaDB query returns (metadata name fields, in rank order). -/
structure SearchEngine where
  all_cards : List Card
  chromadb_available : Bool
  chroma_card_names : String → List String

/-- The cards_by_name dictionary: card.name.lower() to card, later cards
overwrite earlier ones (Python dict comprehension semantics). -/
def cardsByName (cards : List Card) (key : String) : Option Card :=
  (cards.filter (fun c => strLower c.name == key)).getLast?

-- =========================================================================
-- Deterministic post-filters (SearchEngine._apply_post_filters and
-- SearchEngine._filter_by_factions).
-- =========================================================================

/-- Minimum-cost stage of the post-filter chain. -/
def cost_filter_min (cards : List Card) (f : SearchFilters) : List Card :=
  match f.min_cost with
  | some m => cards.filter (fun c => decide (m ≤ c.cost))
  | none => cards

/-- Maximum-cost stage of the post-filter chain. -/
def cost_filter_max (cards : List Card) (f : SearchFilters) : List Card :=
  match f.max_cost with
  | some m => cards.filter (fun c => decide (c.cost ≤ m))
  | none => cards

/-- Unit-type stage of the post-filter chain. -/
def unit_type_filter (cards : List Card) (f : SearchFilters) : List Card :=
  if truthyStrList f.unit_types then
    let unit_types_lower := (f.unit_types.getD []).map strLower
    cards.filter (fun c => c.unit_types.any (fun ut => unit_types_lower.contains (strLower ut)))
  else cards

/-- The allowed_symbols set built at the top of _filter_by_factions:
the symbols of the allowed faction names, unknown names contributing
nothing (FACTION_SYMBOLS.get returning None). -/
def allowedSymbolsList (f : SearchFilters) : List String :=
  (f.allowed_factions.getD []).filterMap
    (fun faction => List.lookup faction FACTION_SYMBOLS)

/-- The card_factions set built per card inside _filter_by_factions: the
influence symbols occurring in the influence string, without duplicates
because the five symbols are pairwise distinct. -/
def cardFactionList (c : Card) : List String :=
  factionSymbolValues.filter (fun s => substrOf s c.influence)

/-- SearchEngine._filter_by_factions: keep a card when the set of the five
influence symbols occurring in its influence string is a subset of the
allowed symbols, and the symbol count respects max_factions_per_card
(None and 0 are falsy in Python, so they impose no bound). -/
def filter_by_factions (cards : List Card) (f : SearchFilters) : List Card :=
  if !truthyStrList f.allowed_factions then cards
  else
    cards.filter (fun c =>
      (cardFactionList c).all (fun s => (allowedSymbolsList f).contains s) &&
        (match f.max_factions_per_card with
         | none => true
         | some m => (m == 0) || decide ((cardFactionList c).length ≤ m)))

/-- SearchEngine._apply_post_filters: cost bounds, then unit types, then
factions. The Expedition format branch in the source is a no-op (TODO). -/
def apply_post_filters (cards : List Card) (f : SearchFilters) : List Card :=
  let results := cost_filter_min cards f
  let results := cost_filter_max results f
  let results := unit_type_filter results f
  if truthyStrList f.allowed_factions then filter_by_factions results f else results

-- =========================================================================
-- Must-include / must-exclude handling (SearchEngine._ensure_must_include
-- and SearchEngine._apply_exclusions).
-- =========================================================================

/-- One iteration of the must-include loop: insert the cached card at the
front when its lowercased name is neither among the pre-computed result
names nor missing from the cache. The name set is computed once, before
the loop, exactly as in the source. -/
def ensure_step (e : SearchEngine) (result_names : List String)
    (acc : List Card) (required_name : String) : List Card :=
  if !result_names.contains (strLower required_name) then
    match cardsByName e.all_cards (strLower required_name) with
    | some card => card :: acc
    | none => acc
  else acc

/-- SearchEngine._ensure_must_include: the name set is computed once from
the incoming results, then the loop folds over the required names. -/
def ensure_must_include (e : SearchEngine) (results : List Card)
    (must_include : List String) : List Card :=
  must_include.foldl (ensure_step e (results.map (fun c => strLower c.name))) results

/-- SearchEngine._apply_exclusions: drop every card whose lowercased name
is among the lowercased excluded names. -/
def apply_exclusions (results : List Card) (must_exclude : List String) : List Card :=
  results.filter (fun c => !(must_exclude.map strLower).contains (strLower c.name))

-- =========================================================================
-- Search dispatch and the three search paths (SearchEngine.search).
-- =========================================================================

inductive SearchPath
  | browse
  | semantic
  | simple
  deriving DecidableEq, Repr

/-- The dispatch decision at the top of SearchEngine.search, exactly the
if / elif / else chain of the source. -/
def search_path (chromadb_available : Bool) (query : String) (f : SearchFilters) : SearchPath :=
  if query == "" && !truthyStrList f.must_include then .browse
  else if chromadb_available && !(query == "") then .semantic
  else .simple

/-- SearchEngine._browse_with_filters: post-filter the whole cache and
truncate to n_results. -/
def SearchEngine.browse_with_filters (e : SearchEngine) (f : SearchFilters)
    (n_results : Nat) : List Card :=
  (apply_post_filters e.all_cards f).take n_results

/-- SearchEngine._semantic_search_with_filters: the ChromaDB reply is
modelled by the uninterpreted name list; each truthy name found in the
cache is converted to its cached card, then the post-filters run. -/
def SearchEngine.semantic_search_with_filters (e : SearchEngine) (query : String)
    (f : SearchFilters) : List Card :=
  apply_post_filters
    ((e.chroma_card_names query).filterMap
      (fun nm => if nm == "" then none else cardsByName e.all_cards (strLower nm))) f

/-- SearchEngine._simple_search_with_filters: naive substring search over
name and card text, then the post-filters. -/
def SearchEngine.simple_search_with_filters (e : SearchEngine) (query : String)
    (f : SearchFilters) : List Card :=
  apply_post_filters
    (e.all_cards.filter (fun c =>
      substrOf (strLower query) (strLower c.name) ||
        substrOf (strLower query) (strLower c.card_text))) f

/-- The list produced by the dispatched search path. -/
def SearchEngine.search_base (e : SearchEngine) (query : String)
    (f : SearchFilters) (n_results : Nat) : List Card :=
  match search_path e.chromadb_available query f with
  | .browse => e.browse_with_filters f n_results
  | .semantic => e.semantic_search_with_filters query f
  | .simple => e.simple_search_with_filters query f

/-- The guarded must-include insertion inside SearchEngine.search. -/
def must_include_step (e : SearchEngine) (f : SearchFilters) (results : List Card) : List Card :=
  if truthyStrList f.must_include
  then ensure_must_include e results (f.must_include.getD []) else results

/-- The guarded exclusion step inside SearchEngine.search. -/
def exclusions_step (f : SearchFilters) (results : List Card) : List Card :=
  if truthyStrList f.must_exclude
  then apply_exclusions results (f.must_exclude.getD []) else results

/-- The result list of SearchEngine.search before the final truncation:
dispatch, then the must-include insertion, then the exclusions. -/
def SearchEngine.search_results_full (e : SearchEngine) (query : String)
    (f : SearchFilters) (n_results : Nat) : List Card :=
  exclusions_step f (must_include_step e f (e.search_base query f n_results))

/-- SearchEngine.search: the full pipeline, truncated to n_results, with
total_found the length before truncation. -/
def SearchEngine.search (e : SearchEngine) (query : String) (f : SearchFilters)
    (n_results : Nat) : SearchResult :=
  let results := e.search_results_full query f n_results
  { cards := results.take n_results
    total_found := results.length
    query := query
    query_interpretation :=
      match search_path e.chromadb_available query f with
      | .browse => "Browsing com filtros"
      | .semantic => "Busca semantica: " ++ query
      | .simple => "Busca simples: " ++ query
    filters_applied := some f
    used_chromadb := search_path e.chromadb_available query f == .semantic }

-- =========================================================================
-- Spreadsheet row parsing, from src/data/sheets_client.py
-- (GoogleSheetsClient._parse_card_row and _load_all_cards).
-- A SheetRow carries the spreadsheet columns as they reach the parser;
-- a missing cell is none, matching dict.get returning None.
-- =========================================================================

structure SheetRow where
  name : String := ""
  deck_buildable : String := ""
  cost : Option String := none
  type_col : Option String := none
  card_text : Option String := none
  rarity : Option String := none
  influence : Option String := none
  set_number : Option String := none
  eternal_id : Option String := none
  attack : Option String := none
  health : Option String := none
  image_url : Option String := none
  deriving DecidableEq, Repr

/-- Value of a nonempty all-digit character list, base 10. -/
def digitsVal (cs : List Char) : Nat := cs.foldl (fun a c => 10 * a + (c.toNat - 48)) 0

/-- Model of the Python int(str) conversion: strip whitespace, allow one
sign, then digits; anything else raises, modelled as none. -/
def pyInt (s : String) : Option Int :=
  let t := ((s.data.dropWhile Char.isWhitespace).reverse.dropWhile Char.isWhitespace).reverse
  match t with
  | [] => none
  | c :: rest =>
    if c = '-' then
      if !rest.isEmpty && rest.all Char.isDigit then some (-(digitsVal rest : Int)) else none
    else if c = '+' then
      if !rest.isEmpty && rest.all Char.isDigit then some ((digitsVal rest : Int)) else none
    else if (c :: rest).all Char.isDigit then some ((digitsVal (c :: rest) : Int)) else none

/-- Model of the Python str.isdigit test. -/
def isdigitStr (s : String) : Bool := !s.data.isEmpty && s.data.all Char.isDigit

/-- Attack and health columns: parsed only when the cell is truthy and all
digits, otherwise None; this branch never raises. -/
def pyOptDigit : Option String → Option Int
  | none => none
  | some s => if s != "" && isdigitStr s then some ((digitsVal s.data : Int)) else none

/-- GoogleSheetsClient._parse_card_row: reject rows whose DeckBuildable
column does not uppercase to TRUE and rows without a Name; a cost cell
that int() cannot parse raises and the except-branch returns None. Every
card built here carries deck_buildable := true. -/
def parse_card_row (row : SheetRow) : Option Card :=
  if strUpper row.deck_buildable != "TRUE" then none
  else if row.name == "" then none
  else
    match (match row.cost with | none => some (0 : Int) | some s => pyInt s) with
    | none => none
    | some cost_val =>
      some { name := strStrip row.name
             cost := cost_val
             type := strStrip (row.type_col.getD "Unknown")
             card_text := strStrip (row.card_text.getD "")
             rarity := strStrip (row.rarity.getD "Common")
             deck_buildable := true
             influence := strStrip (row.influence.getD "")
             set_number := strStrip (row.set_number.getD "")
             eternal_id := some (strStrip (row.eternal_id.getD ""))
             attack := pyOptDigit row.attack
             health := pyOptDigit row.health
             image_url :=
               if strStrip (row.image_url.getD "") == "" then none
               else some (strStrip (row.image_url.getD "")) }

/-- GoogleSheetsClient._load_all_cards: parse every row, keep the cards. -/
def load_all_cards (rows : List SheetRow) : List Card := rows.filterMap parse_card_row

-- =========================================================================
-- Strategy scout, from src/agents/strategy_scout.py: the AI refinement
-- stub and the card pool organisation.
-- =========================================================================

/-- Model of the agno RunResponse carried by the LLM call; its content is
never inspected by the code under verification. -/
structure RunResponse where
  content : String := ""
  deriving DecidableEq, Repr

structure StrategyAnalysis where
  archetype : String := "midrange"
  speed : String := "medium"
  primary_faction : Option String := none
  secondary_factions : List String := []
  key_mechanics : List String := []
  tribal_focus : Option String := none
  must_include_cards : List String := []
  market_preference : Bool := true
  preferred_win_conditions : List String := []
  confidence_score : ℚ := 4/5
  interpretation_notes : String := ""
  deriving DecidableEq

set_option linter.unusedVariables false in
/-- StrategyScoutAgent._parse_ai_response: the body is return initial. -/
def parse_ai_response (response : RunResponse) (initial : StrategyAnalysis) : StrategyAnalysis :=
  initial

/-- StrategyScoutAgent._calculate_relevance. Python floats are modelled as
exact rationals; rounding differences could only move a score across the
0.8 / 0.5 thresholds, which does not affect the permutation property. -/
def calculate_relevance (card : Card) (strategy : StrategyAnalysis) : ℚ :=
  let card_text_lower := strLower card.card_text
  let score : ℚ := 1/2
  let score := score +
    ((strategy.key_mechanics.filter (fun m => substrOf m card_text_lower)).length : ℚ) * (1/10)
  let score := match strategy.tribal_focus with
    | some tribal => if tribal != "" && card.unit_types.contains tribal then score + 1/5 else score
    | none => score
  let score := if strategy.archetype == "aggro" && decide (card.cost ≤ 3) then score + 1/10
    else if strategy.archetype == "control" && substrOf "draw" card_text_lower then score + 1/10
    else score
  min score 1

inductive CardBucket
  | must_inc
  | core
  | synergy
  | support
  deriving DecidableEq, Repr

/-- The bucket a card lands in inside the _organize_card_pool loop: the
must-include check, then the power check, then the relevance thresholds. -/
def classify_card (c : Card) (s : StrategyAnalysis) : CardBucket :=
  if s.must_include_cards.contains c.name then .must_inc
  else if c.is_power then .support
  else if decide ((4 : ℚ)/5 ≤ calculate_relevance c s) then .core
  else if decide ((1 : ℚ)/2 ≤ calculate_relevance c s) then .synergy
  else .support

/-- Python sorted with key card.cost: a stable sort by cost. -/
def sort_by_cost (l : List Card) : List Card :=
  l.mergeSort (fun a b => decide (a.cost ≤ b.cost))

/-- The final deduplication loop of _organize_card_pool: keep the first
occurrence of each card name. -/
def dedup_by_name_aux : List String → List Card → List Card
  | _, [] => []
  | seen, c :: rest =>
    if seen.contains c.name then dedup_by_name_aux seen rest
    else c :: dedup_by_name_aux (c.name :: seen) rest

/-- StrategyScoutAgent._organize_card_pool: bucket every card, concatenate
must-include then the three cost-sorted buckets, then deduplicate by name.
The single classification loop of the source is rendered as one filter per
bucket, which preserves both membership and relative order. -/
def organize_card_pool (cards : List Card) (s : StrategyAnalysis) : List Card :=
  dedup_by_name_aux []
    (cards.filter (fun c => classify_card c s == CardBucket.must_inc) ++
      sort_by_cost (cards.filter (fun c => classify_card c s == CardBucket.core)) ++
      sort_by_cost (cards.filter (fun c => classify_card c s == CardBucket.synergy)) ++
      sort_by_cost (cards.filter (fun c => classify_card c s == CardBucket.support)))

-- =========================================================================
-- Helper lemmas.
-- =========================================================================

theorem substrOf_iff {needle hay : String} :
    substrOf needle hay = true ↔ needle.data <:+: hay.data := by
  simp [substrOf]

theorem truthyStrList_false_getD {o : Option (List String)}
    (h : truthyStrList o = false) : o.getD [] = [] := by
  cases o with
  | none => rfl
  | some l =>
    simp only [truthyStrList, Bool.not_eq_false'] at h
    simpa [Option.getD] using List.isEmpty_iff.mp h

theorem mem_cost_filter_min {c : Card} {cards : List Card} {f : SearchFilters}
    (h : c ∈ cost_filter_min cards f) :
    c ∈ cards ∧ ∀ m, f.min_cost = some m → m ≤ c.cost := by
  unfold cost_filter_min at h
  cases hm : f.min_cost with
  | none =>
    rw [hm] at h
    exact ⟨h, fun m hmm => by cases hmm⟩
  | some m =>
    rw [hm] at h
    rcases List.mem_filter.mp h with ⟨h1, h2⟩
    refine ⟨h1, fun m2 hm2 => ?_⟩
    injection hm2 with e
    subst e
    exact of_decide_eq_true h2

theorem mem_cost_filter_max {c : Card} {cards : List Card} {f : SearchFilters}
    (h : c ∈ cost_filter_max cards f) :
    c ∈ cards ∧ ∀ m, f.max_cost = some m → c.cost ≤ m := by
  unfold cost_filter_max at h
  cases hm : f.max_cost with
  | none =>
    rw [hm] at h
    exact ⟨h, fun m hmm => by cases hmm⟩
  | some m =>
    rw [hm] at h
    rcases List.mem_filter.mp h with ⟨h1, h2⟩
    refine ⟨h1, fun m2 hm2 => ?_⟩
    injection hm2 with e
    subst e
    exact of_decide_eq_true h2

theorem mem_unit_type_filter {c : Card} {cards : List Card} {f : SearchFilters}
    (h : c ∈ unit_type_filter cards f) : c ∈ cards := by
  unfold unit_type_filter at h
  split at h
  · exact List.mem_of_mem_filter h
  · exact h

theorem mem_filter_by_factions {c : Card} {cards : List Card} {f : SearchFilters}
    (h : c ∈ filter_by_factions cards f) : c ∈ cards := by
  unfold filter_by_factions at h
  split at h
  · exact h
  · exact List.mem_of_mem_filter h

theorem mem_apply_post_filters {c : Card} {cards : List Card} {f : SearchFilters}
    (h : c ∈ apply_post_filters cards f) :
    c ∈ cards ∧ (∀ m, f.min_cost = some m → m ≤ c.cost) ∧
      (∀ m, f.max_cost = some m → c.cost ≤ m) := by
  unfold apply_post_filters at h
  have h3 : c ∈ unit_type_filter (cost_filter_max (cost_filter_min cards f) f) f := by
    split at h
    · exact mem_filter_by_factions h
    · exact h
  have h2 := mem_cost_filter_max (mem_unit_type_filter h3)
  have h1 := mem_cost_filter_min h2.1
  exact ⟨h1.1, h1.2, h2.2⟩

theorem contains_iff_mem {l : List String} {a : String} : l.contains a = true ↔ a ∈ l :=
  List.elem_iff

theorem cardsByName_name {cards : List Card} {key : String} {c : Card}
    (h : cardsByName cards key = some c) : strLower c.name = key := by
  unfold cardsByName at h
  have hmem := List.mem_of_mem_getLast? h
  exact beq_iff_eq.mp (List.mem_filter.mp hmem).2

theorem ensure_step_mem {e : SearchEngine} {names : List String} {acc : List Card}
    {x : Card} (nm : String) (h : x ∈ acc) : x ∈ ensure_step e names acc nm := by
  unfold ensure_step
  split
  · cases hcb : cardsByName e.all_cards (strLower nm) with
    | none => simp [hcb]; exact h
    | some card => simp [hcb]; exact Or.inr h
  · exact h

theorem ensure_fold_mem {e : SearchEngine} {names : List String} {x : Card} :
    ∀ (must : List String) (acc : List Card), x ∈ acc →
      x ∈ must.foldl (ensure_step e names) acc := by
  intro must
  induction must with
  | nil => intro acc h; simpa using h
  | cons hd tl ih =>
    intro acc h
    rw [List.foldl_cons]
    exact ih (ensure_step e names acc hd) (ensure_step_mem hd h)

theorem ensure_fold_presence {e : SearchEngine} {names : List String} {nm : String} :
    ∀ (must : List String) (acc : List Card), nm ∈ must →
      (names.contains (strLower nm) = true →
        ∃ c ∈ acc, strLower c.name = strLower nm) →
      (cardsByName e.all_cards (strLower nm)).isSome = true →
      ∃ c ∈ must.foldl (ensure_step e names) acc, strLower c.name = strLower nm := by
  intro must
  induction must with
  | nil => intro acc h; cases h
  | cons hd tl ih =>
    intro acc hmem hacc hsome
    rw [List.foldl_cons]
    rcases List.mem_cons.mp hmem with heq | htl
    · subst heq
      have hstep : ∃ c ∈ ensure_step e names acc nm, strLower c.name = strLower nm := by
        unfold ensure_step
        split
        · cases hcb : cardsByName e.all_cards (strLower nm) with
          | none => rw [hcb] at hsome; cases hsome
          | some card =>
            exact ⟨card, by simp [hcb], cardsByName_name hcb⟩
        · rename_i hcon
          simp only [Bool.not_eq_true, Bool.not_eq_false'] at hcon
          exact hacc hcon
      rcases hstep with ⟨c, hc1, hc2⟩
      exact ⟨c, ensure_fold_mem tl _ hc1, hc2⟩
    · refine ih (ensure_step e names acc hd) htl ?_ hsome
      intro hcon
      rcases hacc hcon with ⟨c, hc1, hc2⟩
      exact ⟨c, ensure_step_mem hd hc1, hc2⟩

theorem mem_apply_exclusions {c : Card} {results : List Card} {excl : List String}
    (h : c ∈ apply_exclusions results excl) :
    c ∈ results ∧ strLower c.name ∉ excl.map strLower := by
  unfold apply_exclusions at h
  rcases List.mem_filter.mp h with ⟨h1, h2⟩
  refine ⟨h1, fun hmem => ?_⟩
  rw [Bool.not_eq_true'] at h2
  rw [← contains_iff_mem] at hmem
  rw [h2] at hmem
  cases hmem

theorem apply_exclusions_keep {c : Card} {results : List Card} {excl : List String}
    (h1 : c ∈ results) (h2 : strLower c.name ∉ excl.map strLower) :
    c ∈ apply_exclusions results excl := by
  unfold apply_exclusions
  refine List.mem_filter.mpr ⟨h1, ?_⟩
  rw [Bool.not_eq_true']
  cases hcon : (excl.map strLower).contains (strLower c.name)
  · rfl
  · exact absurd (contains_iff_mem.mp hcon) h2

theorem search_cards_eq (e : SearchEngine) (query : String) (f : SearchFilters)
    (n_results : Nat) :
    (e.search query f n_results).cards = (e.search_results_full query f n_results).take n_results :=
  rfl

theorem search_total_found_eq (e : SearchEngine) (query : String) (f : SearchFilters)
    (n_results : Nat) :
    (e.search query f n_results).total_found = (e.search_results_full query f n_results).length :=
  rfl

theorem mem_exclusions_step {c : Card} {f : SearchFilters} {results : List Card}
    (h : c ∈ exclusions_step f results) :
    c ∈ results ∧ strLower c.name ∉ (f.must_exclude.getD []).map strLower := by
  unfold exclusions_step at h
  split at h
  · exact mem_apply_exclusions h
  · rename_i hex
    rw [Bool.not_eq_true] at hex
    rw [truthyStrList_false_getD hex]
    exact ⟨h, by simp⟩

theorem mem_must_include_step {c : Card} {e : SearchEngine} {f : SearchFilters}
    {results : List Card} (hmi : truthyStrList f.must_include = false)
    (h : c ∈ must_include_step e f results) : c ∈ results := by
  unfold must_include_step at h
  rw [hmi] at h
  simpa using h

theorem mem_search_base_post_filters {e : SearchEngine} {q : String} {f : SearchFilters}
    {n : Nat} {c : Card} (h : c ∈ e.search_base q f n) :
    (∀ m, f.min_cost = some m → m ≤ c.cost) ∧ (∀ m, f.max_cost = some m → c.cost ≤ m) := by
  unfold SearchEngine.search_base at h
  cases hp : search_path e.chromadb_available q f with
  | browse =>
    rw [hp] at h
    unfold SearchEngine.browse_with_filters at h
    exact (mem_apply_post_filters (List.take_subset _ _ h)).2
  | semantic =>
    rw [hp] at h
    unfold SearchEngine.semantic_search_with_filters at h
    exact (mem_apply_post_filters h).2
  | simple =>
    rw [hp] at h
    unfold SearchEngine.simple_search_with_filters at h
    exact (mem_apply_post_filters h).2

-- =========================================================================
-- Sample data used by witnesses and counterexamples.
-- =========================================================================

def fireSigil : Card := { name := "Fire Sigil", type := "Power" }

def torchCard : Card :=
  { name := "Torch", type := "Spell", cost := 1, influence := "\x7bF\x7d",
    card_text := "Deal 3 damage." }

def cAx : Card := { name := "Ax", type := "Spell" }

def cBx : Card := { name := "Bx", type := "Spell" }

def cCx : Card := { name := "Cx", type := "Spell" }

def plainCard : Card := { name := "Plain", type := "Spell", influence := "" }

-- =========================================================================
-- Claim theorems.
-- =========================================================================

/-- C5: the LLM refinement step _parse_ai_response returns the initial
pattern-based StrategyAnalysis unchanged, whatever the model answered. -/
theorem C5_parse_ai_response_id (response : RunResponse) (initial : StrategyAnalysis) :
    parse_ai_response response initial = initial := rfl

/-- C7: a Card has is_sigil set exactly when its type equals power
case-insensitively and its name contains sigil case-insensitively; in
particular every sigil is a power card. -/
theorem C7_is_sigil_iff (c : Card) :
    (c.is_sigil = true ↔
      strLower c.type = "power" ∧ "sigil".data <:+: (strLower c.name).data) ∧
    (c.is_sigil = true → c.is_power = true) := by
  constructor
  · simp [Card.is_sigil, Card.is_power, substrOf, Bool.and_eq_true, beq_iff_eq]
  · intro h
    simp only [Card.is_sigil, Bool.and_eq_true] at h
    exact h.1

/-- C7 witness: a concrete sigil card is a power card. -/
theorem C7_witness : fireSigil.is_power = true :=
  (C7_is_sigil_iff fireSigil).2 (by decide)

/-- C8: can_access_market holds exactly when the card text is non-empty and
its lowercased text contains one of the three market patterns. -/
theorem C8_can_access_market_iff (c : Card) :
    c.can_access_market = true ↔
      c.card_text ≠ "" ∧
        ("your market".data <:+: (strLower c.card_text).data ∨
         "from your market".data <:+: (strLower c.card_text).data ∨
         "in your market".data <:+: (strLower c.card_text).data) := by
  unfold Card.can_access_market
  by_cases h : c.card_text = ""
  · simp [h]
  · simp [h, substrOf]

/-- C9: the returned card list never exceeds n_results, and total_found
counts the results before truncation, so it is at least the number of
returned cards. -/
theorem C9_truncation_bounds (e : SearchEngine) (query : String) (f : SearchFilters)
    (n_results : Nat) :
    (e.search query f n_results).cards.length ≤ n_results ∧
    (e.search query f n_results).cards.length ≤ (e.search query f n_results).total_found := by
  rw [search_cards_eq, search_total_found_eq, List.length_take]
  exact ⟨min_le_left _ _, min_le_right _ _⟩

/-- C2 amended: the dispatch is determined by query presence, vector-store
availability AND must_include presence: browse needs an empty query and no
must-include list; a non-empty query with the store available goes to the
semantic path; everything else (including an empty query with a must-include
list) goes to the naive substring path. -/
theorem C2_dispatch (avail : Bool) (query : String) (f : SearchFilters) :
    (search_path avail query f = SearchPath.browse ↔
      query = "" ∧ truthyStrList f.must_include = false) ∧
    (search_path avail query f = SearchPath.semantic ↔ query ≠ "" ∧ avail = true) ∧
    (search_path avail query f = SearchPath.simple ↔
      (query = "" ∧ truthyStrList f.must_include = true) ∨
      (query ≠ "" ∧ avail = false)) := by
  unfold search_path
  by_cases hq : query = "" <;> by_cases hm : truthyStrList f.must_include = true <;>
    cases avail <;> simp [hq, hm, Bool.not_eq_true]

def fC2 : SearchFilters := { must_include := some ["Torch"] }

/-- C2 counterexample: with an empty query but a non-empty must_include list
the dispatch is the naive substring path, not the browse path, even though
the vector store is available. -/
theorem C2_counterexample :
    search_path true "" fC2 = SearchPath.simple ∧ SearchPath.simple ≠ SearchPath.browse :=
  ⟨rfl, by decide⟩

/-- Minimum-cost condition of the claim, stated over the filter record. -/
def min_cost_ok (f : SearchFilters) (c : Card) : Prop :=
  match f.min_cost with
  | some m => m ≤ c.cost
  | none => True

/-- Maximum-cost condition of the claim, stated over the filter record. -/
def max_cost_ok (f : SearchFilters) (c : Card) : Prop :=
  match f.max_cost with
  | some m => c.cost ≤ m
  | none => True

/-- C3 amended: when the filters carry no must-include list, every card the
search returns satisfies the cost bounds, because each dispatch path ends in
the deterministic post-filter chain and the remaining steps only drop cards.
The must-include insertion bypasses the post-filters, which is why the
must-include list has to be empty. -/
theorem C3_cost_bounds (e : SearchEngine) (query : String) (f : SearchFilters)
    (n_results : Nat) (hmi : truthyStrList f.must_include = false) :
    ∀ c ∈ (e.search query f n_results).cards, min_cost_ok f c ∧ max_cost_ok f c := by
  intro c hc
  rw [search_cards_eq] at hc
  have h1 : c ∈ e.search_results_full query f n_results := List.take_subset _ _ hc
  unfold SearchEngine.search_results_full at h1
  have h2 := (mem_exclusions_step h1).1
  have h3 := mem_must_include_step hmi h2
  have h4 := mem_search_base_post_filters h3
  constructor
  · unfold min_cost_ok
    cases hm : f.min_cost with
    | none => trivial
    | some m => exact h4.1 m hm
  · unfold max_cost_ok
    cases hm : f.max_cost with
    | none => trivial
    | some m => exact h4.2 m hm

def eC3 : SearchEngine :=
  { all_cards := [torchCard], chromadb_available := false, chroma_card_names := fun _ => [] }

def fC3 : SearchFilters := { min_cost := some 5, must_include := some ["Torch"] }

def fC3w : SearchFilters := { min_cost := some 1, max_cost := some 3 }

/-- C3 witness: a browse search with cost bounds set and no must-include
list returns the sample card, which respects both bounds. -/
theorem C3_witness : min_cost_ok fC3w torchCard ∧ max_cost_ok fC3w torchCard :=
  C3_cost_bounds eC3 "" fC3w 10 rfl torchCard (by decide)

/-- C3 counterexample: a must-include card is inserted after the post-filter
chain ran, so the returned list carries a card below the requested minimum
cost. -/
theorem C3_counterexample :
    fC3.min_cost = some 5 ∧ torchCard ∈ (eC3.search "" fC3 10).cards ∧
      ¬((5 : Int) ≤ torchCard.cost) :=
  ⟨rfl, by decide, by decide⟩

/-- C1 amended: the exclusion half holds as stated: no returned card has a
name matching a must_exclude entry case-insensitively. The inclusion half
holds before truncation: every must-include name found in the cache whose
lowercased form is not also excluded is present (by name) in the
pre-truncation result list counted by total_found, and it is present in the
returned cards whenever that list fits within n_results. -/
theorem C1_must_include_exclude (e : SearchEngine) (query : String) (f : SearchFilters)
    (n_results : Nat) :
    (∀ c ∈ (e.search query f n_results).cards,
        strLower c.name ∉ (f.must_exclude.getD []).map strLower) ∧
    (∀ nm ∈ f.must_include.getD [],
      (cardsByName e.all_cards (strLower nm)).isSome = true →
      strLower nm ∉ (f.must_exclude.getD []).map strLower →
      strLower nm ∈ (e.search_results_full query f n_results).map (fun c => strLower c.name) ∧
      ((e.search_results_full query f n_results).length ≤ n_results →
        strLower nm ∈ (e.search query f n_results).cards.map (fun c => strLower c.name))) := by
  constructor
  · intro c hc
    rw [search_cards_eq] at hc
    have h1 : c ∈ e.search_results_full query f n_results := List.take_subset _ _ hc
    unfold SearchEngine.search_results_full at h1
    exact (mem_exclusions_step h1).2
  · intro nm hnm hsome hnex
    have htruthy : truthyStrList f.must_include = true := by
      cases hoi : f.must_include with
      | none => rw [hoi] at hnm; simp at hnm
      | some l =>
        rw [hoi] at hnm
        simp only [Option.getD] at hnm
        cases l with
        | nil => cases hnm
        | cons a t => rfl
    have hpres : ∃ c ∈ must_include_step e f (e.search_base query f n_results),
        strLower c.name = strLower nm := by
      unfold must_include_step
      rw [htruthy]
      simp only [if_true]
      unfold ensure_must_include
      refine ensure_fold_presence (f.must_include.getD []) _ hnm ?_ hsome
      intro hcon
      rcases List.mem_map.mp (contains_iff_mem.mp hcon) with ⟨c, hc1, hc2⟩
      exact ⟨c, hc1, hc2⟩
    rcases hpres with ⟨c, hc1, hc2⟩
    have hfull : c ∈ e.search_results_full query f n_results := by
      unfold SearchEngine.search_results_full
      unfold exclusions_step
      split
      · exact apply_exclusions_keep hc1 (by rw [hc2]; exact hnex)
      · exact hc1
    constructor
    · exact List.mem_map.mpr ⟨c, hfull, hc2⟩
    · intro hlen
      rw [search_cards_eq, List.take_of_length_le hlen]
      exact List.mem_map.mpr ⟨c, hfull, hc2⟩

def eC1 : SearchEngine :=
  { all_cards := [cAx, cBx, cCx], chromadb_available := false,
    chroma_card_names := fun _ => [] }

def fC1 : SearchFilters := { must_include := some ["Bx", "Cx"], must_exclude := some ["Cx"] }

def fC1w : SearchFilters := { must_include := some ["Bx"] }

/-- C1 witness: a cached must-include name is present by name in the full
result list and, the list being short enough, in the returned cards. -/
theorem C1_witness :
    strLower "Bx" ∈ (eC1.search_results_full "x" fC1w 10).map (fun c => strLower c.name) ∧
    strLower "Bx" ∈ (eC1.search "x" fC1w 10).cards.map (fun c => strLower c.name) := by
  have h := (C1_must_include_exclude eC1 "x" fC1w 10).2 "Bx" (by decide) (by decide) (by decide)
  exact ⟨h.1, h.2 (by decide)⟩

/-- C1 counterexample: both must-include names exist in the cache, yet with
n_results 1 the truncation drops the card named Bx and the exclusion list
removes the card named Cx, so neither is in the returned cards. -/
theorem C1_counterexample :
    (cardsByName eC1.all_cards (strLower "Bx")).isSome = true ∧
    (cardsByName eC1.all_cards (strLower "Cx")).isSome = true ∧
    "Bx" ∈ fC1.must_include.getD [] ∧ "Cx" ∈ fC1.must_include.getD [] ∧
    (eC1.search "x" fC1 1).cards = [cAx] ∧
    cBx ∉ (eC1.search "x" fC1 1).cards ∧
    cCx ∉ (eC1.search "x" fC1 1).cards :=
  ⟨by decide, by decide, by decide, by decide, by decide, by decide, by decide⟩

/-- Spec-side reading of the per-card faction set: a finite set of symbols. -/
def cardFactionSymbols (c : Card) : Finset String := (cardFactionList c).toFinset

/-- Spec-side reading of the allowed-symbol set. -/
def allowedFactionSymbols (f : SearchFilters) : Finset String := (allowedSymbolsList f).toFinset

/-- Spec-side keep predicate for the faction filter, following the words of
the claim: subset of allowed symbols, and, when max_factions_per_card is a
nonzero value, at most that many symbols. -/
def factionSpecKeep (f : SearchFilters) (c : Card) : Bool :=
  decide (cardFactionSymbols c ⊆ allowedFactionSymbols f) &&
    (match f.max_factions_per_card with
     | none => true
     | some m => (m == 0) || decide (((cardFactionSymbols c).card : Int) ≤ m))

theorem cardFactionList_nodup (c : Card) : (cardFactionList c).Nodup :=
  List.Nodup.filter _ (by decide : factionSymbolValues.Nodup)

theorem cardFactionSymbols_card (c : Card) :
    (cardFactionSymbols c).card = (cardFactionList c).length :=
  List.toFinset_card_of_nodup (cardFactionList_nodup c)

theorem factionSubset_all (c : Card) (f : SearchFilters) :
    decide (cardFactionSymbols c ⊆ allowedFactionSymbols f) =
      (cardFactionList c).all (fun s => (allowedSymbolsList f).contains s) := by
  rw [Bool.eq_iff_iff]
  simp only [decide_eq_true_iff, List.all_eq_true, Finset.subset_iff,
    cardFactionSymbols, allowedFactionSymbols, List.mem_toFinset, contains_iff_mem]

/-- C4 amended: with a non-empty allowed_factions list, the faction filter
keeps exactly the cards whose influence-symbol set is a subset of the
allowed symbols and, for a nonzero max_factions_per_card, whose symbol count
is at most that bound; a card with no faction symbols passes whenever
max_factions_per_card is unset, zero, or nonnegative. -/
theorem C4_filter_by_factions (cards : List Card) (f : SearchFilters)
    (h : truthyStrList f.allowed_factions = true) :
    filter_by_factions cards f = cards.filter (factionSpecKeep f) ∧
    (∀ c ∈ cards, cardFactionSymbols c = ∅ →
      (∀ m, f.max_factions_per_card = some m → 0 ≤ m) →
      c ∈ filter_by_factions cards f) := by
  have heq : filter_by_factions cards f = cards.filter (factionSpecKeep f) := by
    unfold filter_by_factions
    rw [h]
    simp only [Bool.not_true, Bool.false_eq_true, if_false]
    refine List.filter_congr ?_
    intro c hc
    unfold factionSpecKeep
    cases hm : f.max_factions_per_card with
    | none => simp [factionSubset_all]
    | some m => simp [factionSubset_all, cardFactionSymbols_card]
  refine ⟨heq, ?_⟩
  intro c hc hempty hmax
  rw [heq]
  refine List.mem_filter.mpr ⟨hc, ?_⟩
  unfold factionSpecKeep
  rw [Bool.and_eq_true]
  constructor
  · exact decide_eq_true (by rw [hempty]; exact Finset.empty_subset _)
  · cases hm : f.max_factions_per_card with
    | none => rfl
    | some m =>
      rw [Bool.or_eq_true]
      right
      rw [decide_eq_true_iff, hempty, Finset.card_empty]
      exact_mod_cast hmax m hm

def fC4w : SearchFilters := { allowed_factions := some ["Fire"], max_factions_per_card := some 2 }

/-- C4 witness: a card without faction symbols passes the filter for a
positive max_factions_per_card. -/
theorem C4_witness : plainCard ∈ filter_by_factions [plainCard] fC4w :=
  (C4_filter_by_factions [plainCard] fC4w rfl).2 plainCard (by decide) (by decide)
    (fun m hm => by simp [fC4w] at hm; omega)

def fC4 : SearchFilters :=
  { allowed_factions := some ["Fire"], max_factions_per_card := some (-1) }

/-- C4 counterexample: with max_factions_per_card set to the nonzero value
minus one, a card with no faction symbols is filtered out, against the
always-passes clause of the claim. -/
theorem C4_counterexample :
    cardFactionSymbols plainCard = ∅ ∧ plainCard ∉ filter_by_factions [plainCard] fC4 :=
  ⟨by decide, by decide⟩

theorem count_filter_ite {p : Card → Bool} (a : Card) (l : List Card) :
    List.count a (l.filter p) = if p a = true then List.count a l else 0 := by
  cases hp : p a
  · rw [if_neg (by simp [hp])]
    rw [List.count_eq_zero]
    intro hmem
    have hpa := (List.mem_filter.mp hmem).2
    rw [hp] at hpa
    cases hpa
  · rw [if_pos rfl]
    exact List.count_filter (by rw [hp])

theorem count_sort_by_cost (a : Card) (l : List Card) :
    List.count a (sort_by_cost l) = List.count a l :=
  (List.mergeSort_perm l _).count_eq a

theorem organized_perm (cards : List Card) (s : StrategyAnalysis) :
    (cards.filter (fun c => classify_card c s == CardBucket.must_inc) ++
      sort_by_cost (cards.filter (fun c => classify_card c s == CardBucket.core)) ++
      sort_by_cost (cards.filter (fun c => classify_card c s == CardBucket.synergy)) ++
      sort_by_cost (cards.filter (fun c => classify_card c s == CardBucket.support))).Perm
      cards := by
  rw [List.perm_iff_count]
  intro a
  simp only [List.count_append, count_sort_by_cost, count_filter_ite]
  cases hb : classify_card a s <;> simp [hb]

theorem dedup_by_name_aux_id :
    ∀ (l : List Card) (seen : List String),
      (∀ n ∈ seen, n ∉ l.map Card.name) → (l.map Card.name).Nodup →
      dedup_by_name_aux seen l = l := by
  intro l
  induction l with
  | nil => intro seen h1 h2; rfl
  | cons c rest ih =>
    intro seen h1 h2
    have hcn : c.name ∉ seen := fun hmem => (h1 c.name hmem) (by simp)
    have hc : seen.contains c.name = false := by
      cases hcon : seen.contains c.name
      · rfl
      · exact absurd (contains_iff_mem.mp hcon) hcn
    simp only [dedup_by_name_aux, hc, Bool.false_eq_true, if_false]
    congr 1
    refine ih (c.name :: seen) ?_ ?_
    · intro n hn
      rcases List.mem_cons.mp hn with heq | hseen
      · subst heq
        simp only [List.map_cons, List.nodup_cons] at h2
        exact h2.1
      · intro hmem
        exact (h1 n hseen) (by simp [hmem])
    · simp only [List.map_cons, List.nodup_cons] at h2
      exact h2.2

/-- C6: on a card list with pairwise distinct names, _organize_card_pool
returns a permutation of its input (no card added, removed or duplicated)
and the resulting pool has pairwise distinct names. -/
theorem C6_organize_card_pool (cards : List Card) (s : StrategyAnalysis)
    (h : (cards.map Card.name).Nodup) :
    (organize_card_pool cards s).Perm cards ∧
    ((organize_card_pool cards s).map Card.name).Nodup := by
  have hperm := organized_perm cards s
  have hnames := ((hperm.map Card.name).nodup_iff).mpr h
  have hded := dedup_by_name_aux_id _ [] (by intro n hn; cases hn) hnames
  unfold organize_card_pool
  rw [hded]
  exact ⟨hperm, hnames⟩

def sC6 : StrategyAnalysis := {}

/-- C6 witness: a two-card pool with distinct names is returned as a
permutation with distinct names. -/
theorem C6_witness :
    (organize_card_pool [cAx, cBx] sC6).Perm [cAx, cBx] ∧
    ((organize_card_pool [cAx, cBx] sC6).map Card.name).Nodup :=
  C6_organize_card_pool [cAx, cBx] sC6 (by decide)

theorem parse_card_row_deckb {row : SheetRow} {c : Card}
    (h : parse_card_row row = some c) : c.deck_buildable = true := by
  unfold parse_card_row at h
  split at h
  · cases h
  · split at h
    · cases h
    · split at h
      · cases h
      · injection h with h2
        exact h2 ▸ rfl

/-- C10: the row parser returns None whenever DeckBuildable does not
uppercase to TRUE or the Name cell is empty; every card it returns carries
deck_buildable true; hence every card the loader puts in the cache is deck
buildable. -/
theorem C10_parse_card_row (row : SheetRow) (rows : List SheetRow) (c : Card) :
    ((strUpper row.deck_buildable ≠ "TRUE" ∨ row.name = "") → parse_card_row row = none) ∧
    (parse_card_row row = some c → c.deck_buildable = true) ∧
    (c ∈ load_all_cards rows → c.deck_buildable = true) := by
  refine ⟨?_, parse_card_row_deckb, ?_⟩
  · intro h
    by_cases hd : strUpper row.deck_buildable = "TRUE"
    · rcases h with h | h
      · exact absurd hd h
      · simp [parse_card_row, hd, h]
    · simp [parse_card_row, hd]
  · intro h
    unfold load_all_cards at h
    rcases List.mem_filterMap.mp h with ⟨r, hr, hp⟩
    exact parse_card_row_deckb hp

def rowBad : SheetRow := { name := "Torch", deck_buildable := "FALSE" }

def rowGood : SheetRow :=
  { name := "Torch", deck_buildable := "true", cost := some "1", type_col := some "Spell" }

def goodTorch : Card := { name := "Torch", cost := 1, type := "Spell", eternal_id := some "" }

/-- C10 witness: a non-buildable row parses to None, and a parsed card is
deck buildable. -/
theorem C10_witness : parse_card_row rowBad = none ∧ goodTorch.deck_buildable = true := by
  constructor
  · exact (C10_parse_card_row rowBad [] goodTorch).1 (Or.inl (by decide))
  · exact (C10_parse_card_row rowGood [] goodTorch).2.1 (by decide)
